import Mathlib

/-!
Verification of the emogenerator Spotify client against its specification.

The development shallowly embeds `src/auth.py` (class `SpotifyAuth`) and
`src/client.py` (class `SpotifyClient`).  Time is modelled as an integer
number of seconds (`datetime.now()` becomes an explicit `now : Int`
argument; `timedelta(minutes=5)` is 300 seconds).  HTTP is modelled by an
environment `Env` of oracles giving, for each request the code can issue,
the parsed data the code extracts from the response; every function that
performs HTTP additionally returns the list of `Request` values it
dispatched, in dispatch order.  `SpotifyAuth` is modelled by explicit
state passing over `AuthState`; the successive return values of
`SpotifyAuth.get_access_token` seen by the client are modelled by the
oracle `Env.tokens`, consumed through a counter threaded through the
client functions (one increment per `get_access_token()` call site
executed, exactly as in the source).
-/

/-- Bytes of the UTF-8 encoding of a unicode code point, as in Python's
`str.encode('utf-8')` (`src/auth.py` line 32). -/
def utf8Bytes (c : Nat) : List Nat :=
  if c < 128 then [c]
  else if c < 2048 then [192 + c / 64, 128 + c % 64]
  else if c < 65536 then [224 + c / 4096, 128 + (c / 64) % 64, 128 + c % 64]
  else [240 + c / 262144, 128 + (c / 4096) % 64, 128 + (c / 64) % 64, 128 + c % 64]

/-- UTF-8 bytes of a string. -/
def strBytes (s : String) : List Nat :=
  (s.data.map (fun c => utf8Bytes c.toNat)).flatten

/-- The standard base64 alphabet. -/
def b64Alphabet : List Char :=
  "ABCDEFGHIJKLMNOPQRSTUVWXYZabcdefghijklmnopqrstuvwxyz0123456789+/".data

/-- Character for a 6-bit value in the standard base64 alphabet. -/
def b64Char (n : Nat) : Char := b64Alphabet.getD n 'A'

/-- Standard base64 encoding of a byte list with padding, as in Python's
`base64.b64encode` (`src/auth.py` line 33). -/
def b64encodeBytes : List Nat → List Char
  | [] => []
  | [a] => [b64Char (a / 4), b64Char (a % 4 * 16), '=', '=']
  | [a, b] => [b64Char (a / 4), b64Char (a % 4 * 16 + b / 16), b64Char (b % 16 * 4), '=']
  | a :: b :: c :: rest =>
    b64Char (a / 4) :: b64Char (a % 4 * 16 + b / 16) ::
      b64Char (b % 16 * 4 + c / 64) :: b64Char (c % 64) :: b64encodeBytes rest

/-- Base64 encoding of the UTF-8 bytes of a string. -/
def b64encode (s : String) : String := ⟨b64encodeBytes (strBytes s)⟩

/-- A value of a query-string parameter (`params` in `requests` calls). -/
inductive ParamVal where
  | str (s : String)
  | num (n : Nat)
  | strList (l : List String)
  deriving DecidableEq

/-- A request body, as serialised by the source: `json.dumps` of an object
with a single field, or a form-encoded field list. -/
inductive ReqBody where
  | jsonName (name : String)
  | jsonUris (uris : List String)
  | formBody (fields : List (String × String))
  deriving DecidableEq

/-- An HTTP request as assembled by the source before dispatch. -/
structure Request where
  method : String
  url : String
  headers : List (String × String)
  params : List (String × ParamVal)
  data : Option ReqBody
  deriving DecidableEq

/-- A failure raised by `SpotifyClient.send_request` (`src/client.py`
lines 97-109): an `HTTPError` carrying status and body, or another
`RequestException`. -/
inductive ReqError where
  | apiFailure (status : Nat) (body : String)
  | transportFailure (msg : String)
  deriving DecidableEq

/-- A diagnostic printed by `SpotifyClient.make_playlist_with_tracks`. -/
inductive Diag where
  | couldNotFind (track artist : String)
  | nothingToAdd
  deriving DecidableEq

/-- The credentials held by `SpotifyAuth.__init__` (`src/auth.py` 9-14). -/
structure Creds where
  client_id : String
  client_secret : String
  refresh_token : String
  deriving DecidableEq

/-- Parsed JSON of a token-endpoint response: `access_token` plus an
optional `expires_in` (`token_data.get` tolerates its absence). -/
structure RefreshResp where
  access_token : String
  expires_in : Option Int
  deriving DecidableEq

/-- The mutable token state of `SpotifyAuth`: `access_token` and
`token_expiry`, both `None` after `__init__`. -/
structure AuthState where
  access_token : Option String
  token_expiry : Option Int
  deriving DecidableEq

/-- `SpotifyAuth` state right after `__init__` (`src/auth.py` 13-14). -/
def initialAuthState : AuthState := ⟨none, none⟩

/-- `SpotifyAuth._is_token_expired` (`src/auth.py` 22-27): true when no
expiry is recorded or `now + 5 minutes >= token_expiry`. -/
def _is_token_expired (now : Int) (s : AuthState) : Bool :=
  match s.token_expiry with
  | none => true
  | some e => decide (e ≤ now + 300)

/-- The fixed token endpoint of `SpotifyAuth._refresh_token`. -/
def tokenEndpoint : String := "https://accounts.spotify.com/api/token"

/-- The POST request assembled by `SpotifyAuth._refresh_token`
(`src/auth.py` 31-45): HTTP Basic authorization from
`client_id:client_secret` and a form body with `grant_type` and
`refresh_token`. -/
def mkRefreshRequest (c : Creds) : Request :=
  { method := "POST"
    url := tokenEndpoint
    headers :=
      [("Authorization", "Basic " ++ b64encode (c.client_id ++ ":" ++ c.client_secret)),
       ("Content-Type", "application/x-www-form-urlencoded")]
    params := []
    data := some (ReqBody.formBody
      [("grant_type", "refresh_token"), ("refresh_token", c.refresh_token)]) }

/-- `SpotifyAuth._refresh_token` (`src/auth.py` 29-51): dispatch the
refresh request and replace the stored token and expiry with the
response's `access_token` and `now + expires_in` (3600 when absent). -/
def _refresh_token (c : Creds) (now : Int) (resp : RefreshResp) (_s : AuthState) :
    AuthState × Request :=
  (⟨some resp.access_token, some (now + resp.expires_in.getD 3600)⟩, mkRefreshRequest c)

/-- `SpotifyAuth.get_access_token` (`src/auth.py` 16-20): refresh when
expired, then return the stored token; also returns the new state and the
refresh requests dispatched (one or none). -/
def get_access_token (c : Creds) (now : Int) (resp : RefreshResp) (s : AuthState) :
    Option String × AuthState × List Request :=
  if _is_token_expired now s then
    match _refresh_token c now resp s with
    | (s2, req) => (s2.access_token, s2, [req])
  else
    (s.access_token, s, [])

/-- One observed `get_access_token` call in a run: the call instant, the
state before, the returned token, whether a refresh was dispatched, and
the state after. -/
structure CallLog where
  now : Int
  before : AuthState
  token : Option String
  refreshed : Bool
  after : AuthState
  deriving DecidableEq

/-- A sequence of `get_access_token` calls, each given by its instant and
by the token-endpoint response that a refresh, if dispatched, receives. -/
def authRun (c : Creds) (s : AuthState) : List (Int × RefreshResp) → List CallLog
  | [] => []
  | (now, resp) :: evs =>
    match get_access_token c now resp s with
    | (tok, s2, reqs) =>
      ⟨now, s, tok, !reqs.isEmpty, s2⟩ :: authRun c s2 evs

/-- Search endpoint URL (`SEARCH_URL`, `src/client.py` line 6). -/
def SEARCH_URL : String := "https://api.spotify.com/v1/search"

/-- Saved-tracks contains endpoint URL (`CONTAINS_URL`, line 7). -/
def CONTAINS_URL : String := "https://api.spotify.com/v1/me/tracks/contains"

/-- Per-user playlists endpoint (`PLAYLIST_URL.format(user_id)`, line 8). -/
def playlistUrl (uid : String) : String :=
  "https://api.spotify.com/v1/users/" ++ uid ++ "/playlists"

/-- Per-playlist tracks endpoint (`ADD_TRACK_URL.format(pid)`, line 9). -/
def addTrackUrl (pid : String) : String :=
  "https://api.spotify.com/v1/playlists/" ++ pid ++ "/tracks"

/-- The oracle environment for the client: `tokens k` is the value the
k-th executed `self.auth.get_access_token()` call returns; `searchIds`
gives the ids extracted from the search response for a (track, artist)
query; `savedFlags` gives the JSON boolean array of the contains endpoint
for a given id list; `newPlaylistId` gives the `id` field of the
create-playlist response; `addResult i` is `none` when the i-th add-tracks
batch call of an `add_playlist_tracks` invocation succeeds, and the error
`send_request` raises for it otherwise. -/
structure Env where
  tokens : Nat → String
  searchIds : String → String → List String
  savedFlags : List String → List Bool
  newPlaylistId : String → String
  addResult : Nat → Option ReqError

/-- The GET request of `SpotifyClient.find_track_ids` (`src/client.py`
17-23): bearer header, free-text query with an `artist:` filter term,
`type=track`, `limit=20`. -/
def mkSearchRequest (tok track artist : String) : Request :=
  { method := "GET"
    url := SEARCH_URL
    headers := [("Authorization", "Bearer " ++ tok)]
    params :=
      [("q", ParamVal.str (track ++ " artist:" ++ artist)),
       ("type", ParamVal.str "track"),
       ("limit", ParamVal.num 20)]
    data := none }

/-- The GET request of `SpotifyClient.find_saved_track` (lines 28-33):
bearer header and the ordered id list as the `ids` parameter. -/
def mkContainsRequest (tok : String) (track_ids : List String) : Request :=
  { method := "GET"
    url := CONTAINS_URL
    headers := [("Authorization", "Bearer " ++ tok)]
    params := [("ids", ParamVal.strList track_ids)]
    data := none }

/-- The POST request of `SpotifyClient.create_playlist` (lines 46-53). -/
def mkCreateRequest (tok uid name : String) : Request :=
  { method := "POST"
    url := playlistUrl uid
    headers := [("Authorization", "Bearer " ++ tok), ("Content-Type", "application/json")]
    params := []
    data := some (ReqBody.jsonName name) }

/-- One POST request of the batch loop in
`SpotifyClient.add_playlist_tracks` (lines 59-72): the headers (and hence
the bearer token, fetched once before the loop) are shared by every
batch; only the body changes. -/
def mkAddRequest (tok pid : String) (uris : List String) : Request :=
  { method := "POST"
    url := addTrackUrl pid
    headers := [("Authorization", "Bearer " ++ tok), ("Content-Type", "application/json")]
    params := []
    data := some (ReqBody.jsonUris uris) }

/-- `SpotifyClient.find_track_ids` (lines 17-26): one search call; the
returned list models `[result["id"] for result in tracks_found]`.  Result:
(ids, requests dispatched, next token counter). -/
def find_track_ids (env : Env) (k : Nat) (track artist : String) :
    List String × List Request × Nat :=
  (env.searchIds track artist, [mkSearchRequest (env.tokens k) track artist], k + 1)

/-- `SpotifyClient.first_saved` (lines 111-115): first id of the pair list
whose flag is true, else `None`. -/
def first_saved : List (String × Bool) → Option String
  | [] => none
  | (tid, saved) :: rest => if saved then some tid else first_saved rest

/-- `SpotifyClient.find_saved_track` (lines 28-35): one contains call,
then `first_saved(list(zip(track_ids, response_json)))`; `zip` truncates
to the shorter of the two lists. -/
def find_saved_track (env : Env) (k : Nat) (track_ids : List String) :
    Option String × List Request × Nat :=
  (first_saved (track_ids.zip (env.savedFlags track_ids)),
   [mkContainsRequest (env.tokens k) track_ids], k + 1)

/-- Output of `get_track_id`: the resolved id (Python returns `None` for
no match), the requests dispatched, and the next token counter. -/
structure GetOut where
  res : Option String
  reqs : List Request
  ctr : Nat
  deriving DecidableEq

/-- `SpotifyClient.get_track_id` (lines 37-44).  `if not saved_track`
tests Python truthiness: both `None` and the empty string fall back to
`track_results[0]`. -/
def get_track_id (env : Env) (k : Nat) (track artist : String) : GetOut :=
  match find_track_ids env k track artist with
  | (track_results, reqs1, k1) =>
    match track_results with
    | [] => ⟨none, reqs1, k1⟩
    | r :: rs =>
      match find_saved_track env k1 (r :: rs) with
      | (saved_track, reqs2, k2) =>
        match saved_track with
        | none => ⟨some r, reqs1 ++ reqs2, k2⟩
        | some s => if s = "" then ⟨some r, reqs1 ++ reqs2, k2⟩ else ⟨some s, reqs1 ++ reqs2, k2⟩

/-- The pure value component of `get_track_id`: what the two-stage
resolution returns for a (track, artist) query under `env`. -/
def resolve_pure (env : Env) (track artist : String) : Option String :=
  match env.searchIds track artist with
  | [] => none
  | r :: rs =>
    match first_saved ((r :: rs).zip (env.savedFlags (r :: rs))) with
    | none => some r
    | some s => if s = "" then some r else some s

/-- Output of `create_playlist`. -/
structure CreateOut where
  pid : String
  reqs : List Request
  ctr : Nat
  deriving DecidableEq

/-- `SpotifyClient.create_playlist` (lines 46-57): one POST, returning
the `id` field of the response. -/
def create_playlist (env : Env) (k : Nat) (uid name : String) : CreateOut :=
  ⟨env.newPlaylistId name, [mkCreateRequest (env.tokens k) uid name], k + 1⟩

/-- `SpotifyClient.subsets_of_size` loop body (lines 117-124), with an
explicit fuel bound on the number of iterations.  For a positive `size`
the Python loop runs at most `items.length` times, so fuel
`items.length` is never exhausted; for `size = 0` the Python loop
diverges on nonempty input and the model is used nowhere. -/
def subsetsGo (size : Nat) : Nat → List String → List (List String)
  | _, [] => []
  | 0, _ :: _ => []
  | fuel + 1, x :: xs =>
    (x :: xs).take size :: subsetsGo size fuel ((x :: xs).drop size)

/-- `SpotifyClient.subsets_of_size` (lines 117-124): chop a list into
consecutive chunks of at most `size` elements. -/
def subsets_of_size (items : List String) (size : Nat) : List (List String) :=
  subsetsGo size items.length items

/-- The batch loop of `SpotifyClient.add_playlist_tracks` (lines 66-72):
dispatch one POST per subset, in order; `fail i` is the error the i-th
dispatch raises, if any, which aborts the loop (the failing request was
already dispatched). -/
def add_loop (fail : Nat → Option ReqError) (mk : List String → Request) :
    List (List String) → Nat → Except ReqError Unit × List Request
  | [], _ => (Except.ok (), [])
  | s :: rest, i =>
    match fail i with
    | some e => (Except.error e, [mk s])
    | none =>
      ((add_loop fail mk rest (i + 1)).1, mk s :: (add_loop fail mk rest (i + 1)).2)

/-- Output of `add_playlist_tracks`. -/
structure AddOut where
  result : Except ReqError Unit
  reqs : List Request
  ctr : Nat

/-- `SpotifyClient.add_playlist_tracks` (lines 59-72): fetch the bearer
token once, chop the uris into subsets of at most 100, and POST the
subsets in order until done or until a dispatch raises. -/
def add_playlist_tracks (env : Env) (k : Nat) (pid : String) (track_uris : List String) :
    AddOut :=
  ⟨(add_loop env.addResult (mkAddRequest (env.tokens k) pid)
      (subsets_of_size track_uris 100) 0).1,
   (add_loop env.addResult (mkAddRequest (env.tokens k) pid)
      (subsets_of_size track_uris 100) 0).2,
   k + 1⟩

/-- Output of the resolution loop of `make_playlist_with_tracks`. -/
structure ResolveOut where
  ids : List String
  diags : List Diag
  reqs : List Request
  ctr : Nat
  deriving DecidableEq

/-- The resolution loop of `SpotifyClient.make_playlist_with_tracks`
(lines 80-86): resolve each pair in order; a truthy id is appended,
otherwise one could-not-find diagnostic is printed for the pair. -/
def resolve_tracks (env : Env) (k : Nat) : List (String × String) → ResolveOut
  | [] => ⟨[], [], [], k⟩
  | (track, artist) :: rest =>
    match get_track_id env k track artist with
    | ⟨tid, reqs1, k1⟩ =>
      match resolve_tracks env k1 rest with
      | ⟨ids, diags, reqs2, k2⟩ =>
        match tid with
        | none => ⟨ids, Diag.couldNotFind track artist :: diags, reqs1 ++ reqs2, k2⟩
        | some s =>
          if s = "" then ⟨ids, Diag.couldNotFind track artist :: diags, reqs1 ++ reqs2, k2⟩
          else ⟨s :: ids, diags, reqs1 ++ reqs2, k2⟩

/-- Output of `make_playlist_with_tracks`: final outcome, diagnostics in
print order, and all requests dispatched in order. -/
structure PubOut where
  result : Except ReqError Unit
  diags : List Diag
  reqs : List Request

/-- `SpotifyClient.make_playlist_with_tracks` (lines 74-95): resolve all
pairs, return with a nothing-to-add report when no id resolved, otherwise
build uris with the `spotify:track:` scheme prefix, create the playlist
and add the uris in batches. -/
def make_playlist_with_tracks (env : Env) (k : Nat) (uid playlist_name : String)
    (tracks_with_artist : List (String × String)) : PubOut :=
  match resolve_tracks env k tracks_with_artist with
  | ⟨track_ids, diags, reqs0, k1⟩ =>
    if track_ids.isEmpty then
      ⟨Except.ok (), diags ++ [Diag.nothingToAdd], reqs0⟩
    else
      match track_ids.map (fun tid => "spotify:track:" ++ tid) with
      | [] => ⟨Except.ok (), diags, reqs0⟩
      | u :: us =>
        match create_playlist env k1 uid playlist_name with
        | ⟨pid, reqs1, k2⟩ =>
          match add_playlist_tracks env k2 pid (u :: us) with
          | ⟨res, reqs2, _⟩ => ⟨res, diags, reqs0 ++ reqs1 ++ reqs2⟩

/-- The first candidate whose saved flag is true, written from the spec's
words for the resolution-preference claim; compared against the source's
`first_saved`-based path. -/
def first_true_candidate (results : List String) (flags : List Bool) : Option String :=
  ((results.zip flags).find? (fun p => p.2)).map Prod.fst

/-- The uri batch carried by an add-tracks request body. -/
def reqUris (r : Request) : List String :=
  match r.data with
  | some (ReqBody.jsonUris b) => b
  | _ => []

/-- Environment in which every search succeeds with three candidates, the
second of which is saved, and every dispatch succeeds. -/
def envAllOk : Env :=
  { tokens := fun _ => "TOK"
    searchIds := fun _ _ => ["A", "B", "C"]
    savedFlags := fun _ => [false, true, false]
    newPlaylistId := fun _ => "PL"
    addResult := fun _ => none }

/-- Environment in which every search returns zero results. -/
def envNoHits : Env :=
  { tokens := fun _ => "TOK"
    searchIds := fun _ _ => []
    savedFlags := fun _ => []
    newPlaylistId := fun _ => "PL"
    addResult := fun _ => none }

/-- Environment in which the first add-tracks batch dispatch raises an
HTTP error. -/
def envFailFirst : Env :=
  { tokens := fun _ => "TOK"
    searchIds := fun _ _ => ["A", "B", "C"]
    savedFlags := fun _ => [false, true, false]
    newPlaylistId := fun _ => "PL"
    addResult := fun i => if i = 0 then some (ReqError.apiFailure 400 "bad") else none }

/-- Environment in which the saved candidate is the empty string while a
distinct candidate is ranked first. -/
def envEmptySaved : Env :=
  { tokens := fun _ => "TOK"
    searchIds := fun _ _ => ["A", ""]
    savedFlags := fun _ => [false, true]
    newPlaylistId := fun _ => "PL"
    addResult := fun _ => none }

/-- Environment in which the top-ranked candidate is the empty string and
is the saved one. -/
def envEmptyFirst : Env :=
  { tokens := fun _ => "TOK"
    searchIds := fun _ _ => ["", "b"]
    savedFlags := fun _ => [true, false]
    newPlaylistId := fun _ => "PL"
    addResult := fun _ => none }

/-- Environment in which the contains endpoint answers with fewer flags
than ids were queried. -/
def envShortFlags : Env :=
  { tokens := fun _ => "TOK"
    searchIds := fun _ _ => ["a", "b", "c"]
    savedFlags := fun _ => [false]
    newPlaylistId := fun _ => "PL"
    addResult := fun _ => none }

/-- Soundness of one observed `get_access_token` call: the returned token
is the stored one, is present, its recorded expiry is at least 300
seconds after the call instant, and a refresh was dispatched exactly when
no expiry was recorded before the call or the recorded expiry was within
300 seconds of the call instant. -/
def TokenCallOk (log : CallLog) : Prop :=
  (∃ e, log.after.token_expiry = some e ∧ log.now + 300 ≤ e) ∧
  log.token = log.after.access_token ∧
  log.token ≠ none ∧
  (log.refreshed = true ↔
    (log.before.token_expiry = none ∨
      ∃ e, log.before.token_expiry = some e ∧ e ≤ log.now + 300))

/-! ## Helper lemmas -/

theorem subsetsGo_flatten (size : Nat) (hs : 0 < size) :
    ∀ (fuel : Nat) (l : List String), l.length ≤ fuel →
      (subsetsGo size fuel l).flatten = l := by
  intro fuel
  induction fuel with
  | zero =>
    intro l hl
    cases l with
    | nil => rfl
    | cons x xs => simp at hl
  | succ f ih =>
    intro l hl
    cases l with
    | nil => rfl
    | cons x xs =>
      simp only [subsetsGo, List.flatten_cons]
      rw [ih ((x :: xs).drop size)
        (by simp only [List.length_drop, List.length_cons] at hl ⊢; omega)]
      exact List.take_append_drop size (x :: xs)

theorem subsetsGo_sizes (size : Nat) :
    ∀ (fuel : Nat) (l : List String) (b : List String),
      b ∈ subsetsGo size fuel l → b.length ≤ size := by
  intro fuel
  induction fuel with
  | zero =>
    intro l b hb
    cases l <;> simp [subsetsGo] at hb
  | succ f ih =>
    intro l b hb
    cases l with
    | nil => simp [subsetsGo] at hb
    | cons x xs =>
      simp only [subsetsGo, List.mem_cons] at hb
      rcases hb with rfl | hb
      · exact List.length_take_le size (x :: xs)
      · exact ih _ _ hb

theorem subsetsGo_count (fuel : Nat) :
    ∀ (l : List String), l.length ≤ fuel →
      (subsetsGo 100 fuel l).length = (l.length + 99) / 100 := by
  induction fuel with
  | zero =>
    intro l hl
    cases l with
    | nil => rfl
    | cons x xs => simp at hl
  | succ f ih =>
    intro l hl
    cases l with
    | nil => rfl
    | cons x xs =>
      simp only [subsetsGo, List.length_cons]
      rw [ih ((x :: xs).drop 100)
        (by simp only [List.length_drop, List.length_cons] at hl ⊢; omega)]
      simp only [List.length_drop, List.length_cons]
      omega

theorem subsets_flatten (l : List String) : (subsets_of_size l 100).flatten = l :=
  subsetsGo_flatten 100 (by omega) l.length l (Nat.le_refl _)

theorem subsets_sizes (l : List String) (b : List String)
    (hb : b ∈ subsets_of_size l 100) : b.length ≤ 100 :=
  subsetsGo_sizes 100 l.length l b hb

theorem subsets_count (l : List String) :
    (subsets_of_size l 100).length = (l.length + 99) / 100 :=
  subsetsGo_count l.length l (Nat.le_refl _)

theorem add_loop_ok (fail : Nat → Option ReqError) (mk : List String → Request)
    (hok : ∀ i, fail i = none) :
    ∀ (l : List (List String)) (n : Nat), add_loop fail mk l n = (Except.ok (), l.map mk) := by
  intro l
  induction l with
  | nil => intro n; rfl
  | cons s rest ih => intro n; simp [add_loop, hok, ih]

theorem add_loop_reqs (fail : Nat → Option ReqError) (mk : List String → Request) :
    ∀ (l : List (List String)) (n : Nat) (r : Request),
      r ∈ (add_loop fail mk l n).2 → ∃ s, r = mk s := by
  intro l
  induction l with
  | nil => intro n r hr; simp [add_loop] at hr
  | cons s rest ih =>
    intro n r hr
    simp only [add_loop] at hr
    cases hf : fail n with
    | some e =>
      rw [hf] at hr
      simp at hr
      exact ⟨s, hr⟩
    | none =>
      rw [hf] at hr
      simp only [List.mem_cons] at hr
      rcases hr with rfl | hr
      · exact ⟨s, rfl⟩
      · exact ih (n + 1) r hr

theorem add_loop_fail (fail : Nat → Option ReqError) (mk : List String → Request) :
    ∀ (l : List (List String)) (n i : Nat) (err : ReqError),
      fail (n + i) = some err → (∀ j, j < i → fail (n + j) = none) → i < l.length →
      add_loop fail mk l n = (Except.error err, (l.take (i + 1)).map mk) := by
  intro l
  induction l with
  | nil => intro n i err _ _ hi; simp at hi
  | cons s rest ih =>
    intro n i err hfail hpre hi
    cases i with
    | zero =>
      simp only [add_loop]
      rw [show n + 0 = n from rfl] at hfail
      rw [hfail]
      simp
    | succ i2 =>
      have h0 : fail n = none := by
        have := hpre 0 (by omega)
        simpa using this
      simp only [add_loop]
      rw [h0]
      rw [ih (n + 1) i2 err (by rw [show n + 1 + i2 = n + (i2 + 1) by omega]; exact hfail)
        (fun j hj => by rw [show n + 1 + j = n + (j + 1) by omega]; exact hpre (j + 1) (by omega))
        (by simp at hi; omega)]
      simp

theorem first_saved_eq_find (l : List (String × Bool)) :
    first_saved l = (l.find? (fun p => p.2)).map Prod.fst := by
  induction l with
  | nil => rfl
  | cons p rest ih =>
    rcases p with ⟨tid, saved⟩
    cases saved with
    | true => simp [first_saved, List.find?_cons_of_pos]
    | false => simpa [first_saved, List.find?_cons_of_neg] using ih

theorem first_saved_mem (l : List (String × Bool)) (x : String)
    (h : first_saved l = some x) : x ∈ l.map Prod.fst := by
  induction l with
  | nil => simp [first_saved] at h
  | cons p rest ih =>
    rcases p with ⟨tid, saved⟩
    cases saved with
    | true =>
      simp [first_saved] at h
      simp [h]
    | false =>
      simp [first_saved] at h
      simp [ih h]

theorem zip_take_len {α β : Type} (l1 : List α) (l2 : List β) :
    l1.zip l2 = (l1.take l2.length).zip l2 := by
  induction l1 generalizing l2 with
  | nil => simp
  | cons a l1 ih =>
    cases l2 with
    | nil => simp
    | cons b l2 => simp [List.zip_cons_cons, ih l2]

theorem get_track_id_nil (env : Env) (k : Nat) (t a : String)
    (h : env.searchIds t a = []) :
    get_track_id env k t a = ⟨none, [mkSearchRequest (env.tokens k) t a], k + 1⟩ := by
  simp [get_track_id, find_track_ids, h]

theorem get_track_id_cons (env : Env) (k : Nat) (t a r : String) (rs : List String)
    (h : env.searchIds t a = r :: rs) :
    get_track_id env k t a =
      ⟨resolve_pure env t a,
       [mkSearchRequest (env.tokens k) t a, mkContainsRequest (env.tokens (k + 1)) (r :: rs)],
       k + 2⟩ := by
  simp only [get_track_id, find_track_ids, find_saved_track, resolve_pure, h]
  cases hf : first_saved ((r :: rs).zip (env.savedFlags (r :: rs))) with
  | none => simp
  | some s =>
    by_cases hs : s = "" <;> simp [hs]

theorem get_track_id_res (env : Env) (k : Nat) (t a : String) :
    (get_track_id env k t a).res = resolve_pure env t a := by
  cases h : env.searchIds t a with
  | nil => rw [get_track_id_nil env k t a h]; simp [resolve_pure, h]
  | cons r rs => rw [get_track_id_cons env k t a r rs h]

theorem get_track_id_reqs (env : Env) (k : Nat) (t a : String) (r : Request)
    (hr : r ∈ (get_track_id env k t a).reqs) :
    r.method = "GET" ∧
      ∃ j, r.headers.head? = some ("Authorization", "Bearer " ++ env.tokens j) := by
  cases h : env.searchIds t a with
  | nil =>
    rw [get_track_id_nil env k t a h] at hr
    simp at hr
    subst hr
    exact ⟨rfl, k, rfl⟩
  | cons c cs =>
    rw [get_track_id_cons env k t a c cs h] at hr
    simp at hr
    rcases hr with rfl | rfl
    · exact ⟨rfl, k, rfl⟩
    · exact ⟨rfl, k + 1, rfl⟩

theorem resolve_tracks_reqs (env : Env) :
    ∀ (pairs : List (String × String)) (k : Nat) (r : Request),
      r ∈ (resolve_tracks env k pairs).reqs →
      r.method = "GET" ∧
        ∃ j, r.headers.head? = some ("Authorization", "Bearer " ++ env.tokens j) := by
  intro pairs
  induction pairs with
  | nil => intro k r hr; simp [resolve_tracks] at hr
  | cons p rest ih =>
    intro k r hr
    rcases p with ⟨t, a⟩
    simp only [resolve_tracks] at hr
    rcases hg : get_track_id env k t a with ⟨tid, reqs1, k1⟩
    rw [hg] at hr
    rcases hrec : resolve_tracks env k1 rest with ⟨ids, diags, reqs2, k2⟩
    rw [hrec] at hr
    have hmem : r ∈ reqs1 ++ reqs2 := by
      cases tid with
      | none => simpa using hr
      | some s =>
        by_cases hs : s = "" <;> simp [hs] at hr <;> exact List.mem_append.mpr hr
    rcases List.mem_append.mp hmem with h1 | h2
    · have := get_track_id_reqs env k t a r (by rw [hg]; exact h1)
      exact this
    · have := ih k1 r (by rw [hrec]; exact h2)
      exact this

theorem resolve_tracks_ids_nil (env : Env) :
    ∀ (pairs : List (String × String)) (k : Nat),
      (∀ p ∈ pairs, resolve_pure env p.1 p.2 = none) →
      (resolve_tracks env k pairs).ids = [] := by
  intro pairs
  induction pairs with
  | nil => intro k _; rfl
  | cons p rest ih =>
    intro k h
    rcases p with ⟨t, a⟩
    have hres : (get_track_id env k t a).res = none := by
      rw [get_track_id_res]
      exact h (t, a) (List.mem_cons_self _ _)
    simp only [resolve_tracks]
    rcases hg : get_track_id env k t a with ⟨tid, reqs1, k1⟩
    have : tid = none := by rw [hg] at hres; exact hres
    subst this
    rcases hrec : resolve_tracks env k1 rest with ⟨ids, diags, reqs2, k2⟩
    have hids : ids = [] := by
      have := ih k1 (fun p hp => h p (List.mem_cons_of_mem _ hp))
      rw [hrec] at this
      exact this
    simp [hids]

theorem authRun_sound (c : Creds) :
    ∀ (evs : List (Int × RefreshResp)) (s : AuthState),
      (s.access_token = none → s.token_expiry = none) →
      (∀ ev ∈ evs, (300 : Int) ≤ ev.2.expires_in.getD 3600) →
      ∀ log ∈ authRun c s evs, TokenCallOk log := by
  intro evs
  induction evs with
  | nil => intro s _ _ log hlog; simp [authRun] at hlog
  | cons ev rest ih =>
    intro s hinv hlife log hlog
    rcases ev with ⟨now, resp⟩
    by_cases hexp : _is_token_expired now s = true
    · have hrun : authRun c s ((now, resp) :: rest) =
          ⟨now, s, some resp.access_token, true,
            ⟨some resp.access_token, some (now + resp.expires_in.getD 3600)⟩⟩ ::
          authRun c ⟨some resp.access_token, some (now + resp.expires_in.getD 3600)⟩ rest := by
        simp [authRun, get_access_token, hexp, _refresh_token]
      rw [hrun] at hlog
      rcases List.mem_cons.mp hlog with rfl | htail
      · refine ⟨⟨now + resp.expires_in.getD 3600, rfl, ?_⟩, rfl, by simp, ?_⟩
        · have hl : (300 : Int) ≤ resp.expires_in.getD 3600 :=
            hlife (now, resp) (List.mem_cons_self _ _)
          show now + 300 ≤ now + resp.expires_in.getD 3600
          omega
        · constructor
          · intro _
            unfold _is_token_expired at hexp
            cases he : s.token_expiry with
            | none => exact Or.inl rfl
            | some e =>
              rw [he] at hexp
              simp at hexp
              exact Or.inr ⟨e, rfl, hexp⟩
          · intro _; rfl
      · exact ih _ (by intro h; simp at h) (fun e he => hlife e (List.mem_cons_of_mem _ he))
          log htail
    · have hrun : authRun c s ((now, resp) :: rest) =
          ⟨now, s, s.access_token, false, s⟩ :: authRun c s rest := by
        simp [authRun, get_access_token, hexp]
      rw [hrun] at hlog
      have hbool : _is_token_expired now s = false := by
        cases hb : _is_token_expired now s
        · rfl
        · exact absurd hb hexp
      rcases he : s.token_expiry with _ | e
      · unfold _is_token_expired at hbool; rw [he] at hbool; simp at hbool
      · have hgt : ¬ (e ≤ now + 300) := by
          unfold _is_token_expired at hbool
          rw [he] at hbool
          simpa using hbool
        rcases List.mem_cons.mp hlog with rfl | htail
        · refine ⟨⟨e, he, by show now + 300 ≤ e; omega⟩, rfl, ?_, ?_⟩
          · intro hnone
            have := hinv hnone
            rw [he] at this
            exact Option.noConfusion this
          · constructor
            · intro hfalse; exact absurd hfalse (by simp)
            · intro habs
              rcases habs with h1 | ⟨e2, he2, hle⟩
              · rw [he] at h1; exact Option.noConfusion h1
              · rw [he] at he2
                injection he2 with he2
                subst he2
                exact absurd hle hgt
        · exact ih s hinv (fun x hx => hlife x (List.mem_cons_of_mem _ hx)) log htail

/-! ## Claim theorems -/

/-- C1, counterexample to the claim as stated: starting from the initial
state, a single `get_access_token` call at instant 0 whose refresh
response grants a 10-second lifetime returns a token whose recorded
expiry is 10, i.e. strictly less than 5 minutes (300 seconds) away, so
not every returned token has at least 5 minutes remaining. -/
theorem token_validity_cex :
    authRun ⟨"id", "secret", "rt"⟩ initialAuthState [(0, ⟨"t", some 10⟩)] =
      [⟨0, ⟨none, none⟩, some "t", true, ⟨some "t", some 10⟩⟩] ∧
    ¬ ((0 : Int) + 300 ≤ 10) := by
  exact ⟨by decide, by decide⟩

/-- C1 (amended): for every sequence of `get_access_token` calls starting
from the constructor state, provided every refresh response grants a
lifetime of at least 300 seconds (the 3600 default included), each call
returns the stored token, which is present, with at least 5 minutes (300
seconds) between the call instant and its recorded expiry; and a refresh
exchange is dispatched on a call if and only if no expiry was recorded or
the recorded expiry was within 5 minutes of the call instant. -/
theorem token_validity_amended (c : Creds) (evs : List (Int × RefreshResp))
    (hlife : ∀ ev ∈ evs, (300 : Int) ≤ ev.2.expires_in.getD 3600) :
    ∀ log ∈ authRun c initialAuthState evs, TokenCallOk log :=
  authRun_sound c evs initialAuthState (fun _ => rfl) hlife

/-- C1 witness: the amended theorem applied to a concrete one-call run. -/
theorem token_validity_witness :
    TokenCallOk ⟨0, ⟨none, none⟩, some "t", true, ⟨some "t", some 3600⟩⟩ :=
  token_validity_amended ⟨"id", "secret", "rt"⟩ [(0, ⟨"t", some 3600⟩)] (by decide)
    ⟨0, ⟨none, none⟩, some "t", true, ⟨some "t", some 3600⟩⟩ (by decide)

/-- C7: on a `get_access_token` call where the expiry check fires, the
manager performs one refresh exchange: a POST to the fixed token endpoint
whose Authorization header is HTTP Basic over `client_id:client_secret`,
with form body `grant_type=refresh_token, refresh_token=<token>`, and it
replaces the stored token and expiry with the response, the new expiry
being `now` plus the provided lifetime, 3600 seconds when `expires_in`
is absent. -/
theorem refresh_exchange (c : Creds) (now : Int) (resp : RefreshResp) (s : AuthState)
    (h : _is_token_expired now s = true) :
    get_access_token c now resp s =
      (some resp.access_token,
       ⟨some resp.access_token, some (now + resp.expires_in.getD 3600)⟩,
       [mkRefreshRequest c]) ∧
    (mkRefreshRequest c).method = "POST" ∧
    (mkRefreshRequest c).url = tokenEndpoint ∧
    (mkRefreshRequest c).headers =
      [("Authorization", "Basic " ++ b64encode (c.client_id ++ ":" ++ c.client_secret)),
       ("Content-Type", "application/x-www-form-urlencoded")] ∧
    (mkRefreshRequest c).data =
      some (ReqBody.formBody
        [("grant_type", "refresh_token"), ("refresh_token", c.refresh_token)]) ∧
    (resp.expires_in = none → resp.expires_in.getD 3600 = 3600) := by
  refine ⟨?_, rfl, rfl, rfl, rfl, ?_⟩
  · simp [get_access_token, h, _refresh_token]
  · intro h2; rw [h2]; rfl

/-- C7 witness: the refresh-exchange theorem at a concrete expired state
with an absent `expires_in`. -/
theorem refresh_exchange_witness :
    get_access_token ⟨"id", "sec", "rt"⟩ 0 ⟨"tok", none⟩ initialAuthState =
      (some "tok", ⟨some "tok", some 3600⟩, [mkRefreshRequest ⟨"id", "sec", "rt"⟩]) :=
  (refresh_exchange ⟨"id", "sec", "rt"⟩ 0 ⟨"tok", none⟩ initialAuthState rfl).1

/-- C2: when every batch dispatch succeeds, the batched add-tracks step
issues exactly `ceil(N/100) = (N + 99) / 100` add-tracks calls, each
carrying at most 100 uris, and the concatenation of the carried batches
in call order is exactly the original uri list. -/
theorem batching_invariant (env : Env) (k : Nat) (pid : String) (uris : List String)
    (hok : ∀ i, env.addResult i = none) :
    (add_playlist_tracks env k pid uris).reqs.length = (uris.length + 99) / 100 ∧
    (∀ r ∈ (add_playlist_tracks env k pid uris).reqs,
       ∃ b, r.data = some (ReqBody.jsonUris b) ∧ b.length ≤ 100) ∧
    ((add_playlist_tracks env k pid uris).reqs.map reqUris).flatten = uris := by
  have hreqs : (add_playlist_tracks env k pid uris).reqs =
      (subsets_of_size uris 100).map (mkAddRequest (env.tokens k) pid) := by
    simp [add_playlist_tracks, add_loop_ok env.addResult _ hok]
  refine ⟨?_, ?_, ?_⟩
  · rw [hreqs, List.length_map, subsets_count]
  · intro r hr
    rw [hreqs] at hr
    rcases List.mem_map.mp hr with ⟨b, hb, rfl⟩
    exact ⟨b, rfl, subsets_sizes uris b hb⟩
  · rw [hreqs, List.map_map]
    have hid : reqUris ∘ mkAddRequest (env.tokens k) pid = id := by
      funext s; rfl
    rw [hid, List.map_id, subsets_flatten]

/-- C2 witness: the batching invariant at a concrete 150-uri list, which
yields two batches. -/
theorem batching_invariant_witness :
    (add_playlist_tracks envAllOk 0 "PL" (List.replicate 150 "u")).reqs.length =
      ((List.replicate 150 "u" : List String).length + 99) / 100 :=
  (batching_invariant envAllOk 0 "PL" (List.replicate 150 "u") (fun _ => rfl)).1

/-- C3, counterexample to the claim as stated: with candidates
`["A", ""]` and saved flags `[false, true]`, the first candidate whose
flag is true is the empty string, but resolution returns `"A"` (the code
tests the saved id by truthiness, and the empty string is falsy). -/
theorem resolution_preference_cex :
    resolve_pure envEmptySaved "t" "a" = some "A" ∧
    first_true_candidate ["A", ""] [false, true] = some "" ∧
    some "A" ≠ (some "" : Option String) := by
  exact ⟨by decide, by decide, by decide⟩

/-- C3 (amended): for a non-empty candidate list and its parallel flag
list, provided every candidate identifier is a non-empty string,
resolution returns the first candidate (in search-ranked order) whose
flag is true, and the first (highest-ranked) candidate when no flag is
true. -/
theorem resolution_preference_amended (env : Env) (t a r : String) (rs : List String)
    (h : env.searchIds t a = r :: rs)
    (_hlen : (env.savedFlags (r :: rs)).length = (r :: rs).length)
    (hne : ∀ x ∈ r :: rs, x ≠ "") :
    resolve_pure env t a =
      some ((first_true_candidate (r :: rs) (env.savedFlags (r :: rs))).getD r) := by
  cases hf : first_saved ((r :: rs).zip (env.savedFlags (r :: rs))) with
  | none =>
    have hmap := first_saved_eq_find ((r :: rs).zip (env.savedFlags (r :: rs)))
    rw [hf] at hmap
    have hfind : ((r :: rs).zip (env.savedFlags (r :: rs))).find? (fun p => p.2) = none :=
      Option.map_eq_none'.mp hmap.symm
    simp [resolve_pure, h, hf, first_true_candidate, hfind]
  | some s =>
    have hmap := first_saved_eq_find ((r :: rs).zip (env.savedFlags (r :: rs)))
    rw [hf] at hmap
    have hsne : s ≠ "" := by
      have hmem := first_saved_mem _ s hf
      rcases List.mem_map.mp hmem with ⟨p, hp, rfl⟩
      exact hne p.1 (List.of_mem_zip hp).1
    simp [resolve_pure, h, hf, hsne, first_true_candidate, ← hmap]

/-- C3 witness: the amended theorem at candidates `["A", "B", "C"]` with
flags `[false, true, false]`, where resolution picks the saved `"B"`. -/
theorem resolution_preference_witness :
    resolve_pure envAllOk "t" "a" =
      some ((first_true_candidate ["A", "B", "C"]
        (envAllOk.savedFlags ["A", "B", "C"])).getD "A") :=
  resolution_preference_amended envAllOk "t" "a" "A" ["B", "C"] rfl (by decide) (by decide)

/-- C4: when the search for a (track, artist) query returns zero
candidates, `get_track_id` returns `none` having dispatched exactly the
one search request and no library-contains request; in the resolution
loop the query contributes no identifier, emits exactly one
could-not-find diagnostic, and the remaining queries are processed
unchanged. -/
theorem zero_result_unresolved (env : Env) (k : Nat) (t a : String)
    (rest : List (String × String)) (h : env.searchIds t a = []) :
    get_track_id env k t a = ⟨none, [mkSearchRequest (env.tokens k) t a], k + 1⟩ ∧
    resolve_tracks env k ((t, a) :: rest) =
      ⟨(resolve_tracks env (k + 1) rest).ids,
       Diag.couldNotFind t a :: (resolve_tracks env (k + 1) rest).diags,
       mkSearchRequest (env.tokens k) t a :: (resolve_tracks env (k + 1) rest).reqs,
       (resolve_tracks env (k + 1) rest).ctr⟩ := by
  refine ⟨get_track_id_nil env k t a h, ?_⟩
  simp only [resolve_tracks]
  rw [get_track_id_nil env k t a h]
  rcases hrec : resolve_tracks env (k + 1) rest with ⟨ids, diags, reqs2, k2⟩
  simp

/-- C4 witness: the zero-result theorem at a concrete environment whose
searches return no candidates. -/
theorem zero_result_witness :
    get_track_id envNoHits 0 "x" "y" = ⟨none, [mkSearchRequest "TOK" "x" "y"], 1⟩ :=
  (zero_result_unresolved envNoHits 0 "x" "y" [] rfl).1

/-- C5: when every query of the playlist resolves to `none`, the publish
reports nothing-to-add and returns having dispatched only GET requests —
in particular no playlist-creation call and no add-tracks call, which are
both POSTs. -/
theorem empty_resolution_no_create (env : Env) (k : Nat) (uid pname : String)
    (pairs : List (String × String))
    (h : ∀ p ∈ pairs, resolve_pure env p.1 p.2 = none) :
    ∃ ds rs0,
      make_playlist_with_tracks env k uid pname pairs =
        ⟨Except.ok (), ds ++ [Diag.nothingToAdd], rs0⟩ ∧
      ∀ r ∈ rs0, r.method = "GET" := by
  have hids := resolve_tracks_ids_nil env pairs k h
  rcases hro : resolve_tracks env k pairs with ⟨ids, diags, reqs0, k1⟩
  have hids2 : ids = [] := by rw [hro] at hids; exact hids
  subst hids2
  refine ⟨diags, reqs0, ?_, ?_⟩
  · simp [make_playlist_with_tracks, hro]
  · intro r hr
    exact (resolve_tracks_reqs env pairs k r (by rw [hro]; exact hr)).1

/-- C5 witness: the empty-resolution theorem at a concrete environment
with one unresolvable query. -/
theorem empty_resolution_witness :
    ∃ ds rs0,
      make_playlist_with_tracks envNoHits 0 "uid" "pl" [("x", "y")] =
        ⟨Except.ok (), ds ++ [Diag.nothingToAdd], rs0⟩ ∧
      ∀ r ∈ rs0, r.method = "GET" :=
  empty_resolution_no_create envNoHits 0 "uid" "pl" [("x", "y")] (by decide)

/-- C6: every request dispatched during a publish — search,
library-contains, playlist-create, and each individual add-tracks batch
call — carries as its first header a bearer-token Authorization header
whose token was obtained from the token manager before that dispatch. -/
theorem bearer_header_invariant (env : Env) (k : Nat) (uid pname : String)
    (pairs : List (String × String)) :
    ∀ r ∈ (make_playlist_with_tracks env k uid pname pairs).reqs,
      ∃ j, r.headers.head? = some ("Authorization", "Bearer " ++ env.tokens j) := by
  intro r hr
  rcases hro : resolve_tracks env k pairs with ⟨ids, diags, reqs0, k1⟩
  simp only [make_playlist_with_tracks, hro] at hr
  cases ids with
  | nil =>
    simp at hr
    exact (resolve_tracks_reqs env pairs k r (by rw [hro]; exact hr)).2
  | cons i is =>
    simp only [List.isEmpty_cons, List.map_cons, create_playlist, add_playlist_tracks,
      if_neg] at hr
    simp at hr
    rcases hr with hr0 | hr1 | hradd
    · exact (resolve_tracks_reqs env pairs k r (by rw [hro]; exact hr0)).2
    · exact ⟨k1, by rw [hr1]; rfl⟩
    · rcases add_loop_reqs _ _ _ _ r hradd with ⟨s, rfl⟩
      exact ⟨k1 + 1, rfl⟩

/-- C6 witness: the bearer-header theorem at a concrete publish, applied
to its search request. -/
theorem bearer_header_witness :
    ∃ j, (mkSearchRequest "TOK" "s" "a").headers.head? =
      some ("Authorization", "Bearer " ++ envAllOk.tokens j) :=
  bearer_header_invariant envAllOk 0 "uid" "pl" [("s", "a")]
    (mkSearchRequest "TOK" "s" "a") (by decide)

/-- C8: when the batch dispatches before the i-th succeed and the i-th
raises a typed error, `add_playlist_tracks` stops at the i-th call: the
dispatched requests are exactly the first i+1 batch requests (the batches
before the failing one remain dispatched, nothing is dispatched after the
failing one, and no retry occurs) and the typed error is surfaced as the
result. -/
theorem add_failure_aborts (env : Env) (k : Nat) (pid : String) (uris : List String)
    (i : Nat) (err : ReqError)
    (hfail : env.addResult i = some err)
    (hpre : ∀ j, j < i → env.addResult j = none)
    (hi : i < (subsets_of_size uris 100).length) :
    add_playlist_tracks env k pid uris =
      ⟨Except.error err,
       ((subsets_of_size uris 100).take (i + 1)).map (mkAddRequest (env.tokens k) pid),
       k + 1⟩ := by
  have hloop := add_loop_fail env.addResult (mkAddRequest (env.tokens k) pid)
    (subsets_of_size uris 100) 0 i err (by simpa using hfail)
    (fun j hj => by simpa using hpre j hj) hi
  simp [add_playlist_tracks, hloop]

set_option maxRecDepth 4000 in
/-- C8 witness: the abort theorem at a concrete 150-uri list (two
batches) whose first batch dispatch raises an HTTP 400 error: only the
first batch request is dispatched and the error is surfaced. -/
theorem add_failure_witness :
    add_playlist_tracks envFailFirst 0 "PL" (List.replicate 150 "u") =
      ⟨Except.error (ReqError.apiFailure 400 "bad"),
       ((subsets_of_size (List.replicate 150 "u") 100).take 1).map (mkAddRequest "TOK" "PL"),
       1⟩ :=
  add_failure_aborts envFailFirst 0 "PL" (List.replicate 150 "u") 0
    (ReqError.apiFailure 400 "bad") rfl (fun j hj => absurd hj (Nat.not_lt_zero j))
    (by decide)

/-- C9: when the library-contains response carries fewer flags than the
candidates queried, the zip-based pairing truncates to the flag count:
the saved-preference value equals the one computed on the truncated
candidate list, any id it selects lies among the first `len(response)`
candidates, and when it selects none resolution falls back to the first
search result. -/
theorem contains_truncation (env : Env) (k : Nat) (t a r : String) (rs : List String)
    (h : env.searchIds t a = r :: rs)
    (_hlen : (env.savedFlags (r :: rs)).length < (r :: rs).length) :
    (find_saved_track env k (r :: rs)).1 =
      first_saved (((r :: rs).take (env.savedFlags (r :: rs)).length).zip
        (env.savedFlags (r :: rs))) ∧
    (∀ x, (find_saved_track env k (r :: rs)).1 = some x →
       x ∈ (r :: rs).take (env.savedFlags (r :: rs)).length) ∧
    ((find_saved_track env k (r :: rs)).1 = none → resolve_pure env t a = some r) := by
  refine ⟨?_, ?_, ?_⟩
  · show first_saved ((r :: rs).zip (env.savedFlags (r :: rs))) = _
    rw [← zip_take_len]
  · intro x hx
    have hx2 : first_saved ((r :: rs).zip (env.savedFlags (r :: rs))) = some x := hx
    rw [zip_take_len] at hx2
    have hmem := first_saved_mem _ x hx2
    rcases List.mem_map.mp hmem with ⟨p, hp, rfl⟩
    exact (List.of_mem_zip hp).1
  · intro hnone
    have hn : first_saved ((r :: rs).zip (env.savedFlags (r :: rs))) = none := hnone
    simp [resolve_pure, h, hn]

/-- C9 witness: the truncation theorem at three candidates and a single
false flag, where resolution falls back to the first candidate. -/
theorem contains_truncation_witness :
    resolve_pure envShortFlags "t" "ar" = some "a" :=
  (contains_truncation envShortFlags 0 "t" "ar" "a" ["b", "c"] rfl (by decide)).2.2
    (by decide)

/-- C10: a resolved identifier equal to the empty string is treated as
unresolved at the public interface: in the resolution loop of the publish
it contributes no identifier and produces the could-not-find diagnostic
while later queries proceed unchanged; and inside resolution a saved
identifier equal to the empty string makes the code fall back to the
first search candidate. -/
theorem empty_id_unresolved (env : Env) (k : Nat) (t a r : String) (rs : List String)
    (rest : List (String × String)) (h : env.searchIds t a = r :: rs) :
    (resolve_pure env t a = some "" →
      (resolve_tracks env k ((t, a) :: rest)).ids = (resolve_tracks env (k + 2) rest).ids ∧
      (resolve_tracks env k ((t, a) :: rest)).diags =
        Diag.couldNotFind t a :: (resolve_tracks env (k + 2) rest).diags) ∧
    (first_saved ((r :: rs).zip (env.savedFlags (r :: rs))) = some "" →
      resolve_pure env t a = some r) := by
  constructor
  · intro hres
    have hg := get_track_id_cons env k t a r rs h
    rw [hres] at hg
    simp only [resolve_tracks]
    rw [hg]
    rcases hrec : resolve_tracks env (k + 2) rest with ⟨ids, diags, reqs2, k2⟩
    simp
  · intro hsaved
    simp [resolve_pure, h, hsaved]

/-- C10 witness: the empty-identifier theorem at an environment whose
top-ranked candidate is the empty string and is saved: the pair is
excluded and diagnosed. -/
theorem empty_id_witness :
    (resolve_tracks envEmptyFirst 0 [("t", "a")]).ids =
      (resolve_tracks envEmptyFirst 2 []).ids ∧
    (resolve_tracks envEmptyFirst 0 [("t", "a")]).diags =
      Diag.couldNotFind "t" "a" :: (resolve_tracks envEmptyFirst 2 []).diags :=
  (empty_id_unresolved envEmptyFirst 0 "t" "a" "" ["b"] [] rfl).1 (by decide)
